import Mathlib

/-!
Verification of the terminal runtime of `node-terminal-api`.

This file gives a shallow embedding, in Lean, of the parts of the
repository that the specification talks about:

* `src/utils/colors.ts` — ANSI color helpers (`colorize`, `bold`,
  `ANSI_CONTROL`);
* `src/core/Terminal.ts` (the raw-mode revision) — the `Terminal`
  class: `display`, `enableRawMode`, `disableRawMode`, `onKeypress`
  with its unsubscribe capability, `readKey`, `handleKeypress`,
  `exit`, and `run`;
* `src/apps/AppSelector.ts` — the menu selector's `onInput`;
* `src/apps/SnakeGame.ts` — `initializeGame`, `updateGame`,
  `generateFood`.

JavaScript-specific behaviors are embedded explicitly:

* `Array.prototype.indexOf` + `splice(i, 1)` is `List.erase` (remove
  the first occurrence, no-op when absent);
* the `for (const l of arr)` loop in `handleKeypress` iterates the
  *live* array by index, so a listener that splices itself out shifts
  the elements after it one position down under the iterator; the
  loop is embedded as `dispatchAux`, a fueled index-based loop (the
  fuel `arr.length` is always sufficient: the index grows by one per
  step and the array never grows);
* `parseInt(s, 10)` parses an optional sign followed by the longest
  leading run of decimal digits and is NaN when that run is empty;
* `a ?? b` on possibly-undefined values is `Option.getD` /
  `Option.orElse`.
-/

namespace NodeTerminal

/-! ## Colors (`src/utils/colors.ts`) -/

/-- The `Color` union type of `colors.ts`. -/
inductive Color
  | red
  | green
  | blue
  | yellow
  | reset
deriving DecidableEq

/-- `ANSI_COLORS` record of `colors.ts`, as a function from color names
to escape sequences. -/
def colorSeq : Color → String
  | Color.red => "\x1b[31m"
  | Color.green => "\x1b[32m"
  | Color.blue => "\x1b[34m"
  | Color.yellow => "\x1b[33m"
  | Color.reset => "\x1b[0m"

/-- `ANSI_COLORS.reset`. -/
def resetSeq : String := "\x1b[0m"

/-- `ANSI_COLORS.bold`. -/
def boldSeq : String := "\x1b[1m"

/-- `ANSI_CONTROL.clearScreen`. -/
def clearScreenSeq : String := "\x1b[2J\x1b[0f"

/-- `colorize(text, color)` from `colors.ts`. -/
def colorize (text : String) (color : Color) : String :=
  colorSeq color ++ text ++ resetSeq

/-- `bold(text)` from `colors.ts`. -/
def bold (text : String) : String :=
  boldSeq ++ text ++ resetSeq

/-- `DisplayOptions` from `src/types/index.ts`: all three fields are
optional in TypeScript, so each is an `Option` here.  `display` tests
`options.bold === true` and `options.newLine !== false`, which the
`Option Bool` embedding reproduces exactly. -/
structure DisplayOptions where
  color : Option Color := none
  bold : Option Bool := none
  newLine : Option Bool := none
deriving DecidableEq

/-- `Terminal.display(content, options)`: the byte string written to
`process.stdout`.  Mirrors the source: apply `colorize` when a color
is given, then wrap in `bold` when `options.bold === true`, then
append a newline unless `options.newLine === false`. -/
def displayString (content : String) (options : DisplayOptions) : String :=
  let out1 := match options.color with
    | some c => colorize content c
    | none => content
  let out2 := if options.bold = some true then bold out1 else out1
  if options.newLine = some false then out2 else out2 ++ "\n"

/-! ## Keypress events (`Terminal.handleKeypress`) -/

/-- `KeypressEvent` from `Terminal.ts`: all fields are total. -/
structure KeypressEvent where
  sequence : String
  name : String
  ctrl : Bool
  meta : Bool
  shift : Bool
deriving DecidableEq

/-- `readline.Key`, the platform key object: every field is optional,
and the whole object may be absent. -/
structure RawKey where
  name : Option String := none
  ctrl : Option Bool := none
  meta : Option Bool := none
  shift : Option Bool := none
deriving DecidableEq

/-- The event built by `Terminal.handleKeypress(str, key)` from a
platform keypress notification, embedding the `??` default chains:
`sequence: str ?? ""`, `name: key?.name ?? str ?? ""`,
`ctrl/meta/shift: key?.<flag> ?? false`. -/
def mkKeypressEvent (str : Option String) (key : Option RawKey) : KeypressEvent :=
  { sequence := str.getD ""
    name := ((key.bind RawKey.name).orElse (fun _ => str)).getD ""
    ctrl := (key.bind RawKey.ctrl).getD false
    meta := (key.bind RawKey.meta).getD false
    shift := (key.bind RawKey.shift).getD false }

/-! ## The listener list and the dispatch loop

`Terminal.keypressListeners` holds callbacks.  The callbacks relevant
to the specification's claims have one of two behaviors when invoked:

* a callback registered through `onKeypress` (claims C1, C5, C6) only
  observes the event — it does not touch the listener list;
* the one-shot handler pushed by `readKey` removes itself from the
  list (`indexOf` + `splice`) and resolves its promise with the event.

A listener is identified by the id of the closure object; two
registrations of the *same* callback share an id, while every
`readKey` call creates a fresh closure. -/

/-- A callback in `keypressListeners`: `pers id` is a plain
`onKeypress` callback, `once id` the self-removing handler created by
one `readKey` call. -/
inductive Listener
  | pers (id : Nat)
  | once (id : Nat)
deriving DecidableEq

/-- Whether a listener is a one-shot `readKey` handler. -/
def Listener.isOnce : Listener → Bool
  | Listener.pers _ => false
  | Listener.once _ => true

/-- The `for (const listener of this.keypressListeners)` loop of
`handleKeypress`, embedded faithfully to JavaScript array-iterator
semantics: the iterator keeps a numeric index into the *live* array,
yields `arr[i]` while `i < arr.length`, and a one-shot listener
splices out the first occurrence of itself (`indexOf` + `splice`,
i.e. `List.erase`) before the index advances.  The fuel only bounds
the number of loop steps; `arr.length` steps always suffice because
the index grows by one per step and the array never grows. -/
def dispatchAux (ev : KeypressEvent) :
    Nat → List Listener → Nat → List Listener × List (Listener × KeypressEvent)
  | 0, arr, _ => (arr, [])
  | fuel + 1, arr, i =>
    if i < arr.length then
      match arr.getD i (Listener.pers 0) with
      | Listener.pers n =>
        let r := dispatchAux ev fuel arr (i + 1)
        (r.1, (Listener.pers n, ev) :: r.2)
      | Listener.once n =>
        let r := dispatchAux ev fuel (arr.erase (Listener.once n)) (i + 1)
        (r.1, (Listener.once n, ev) :: r.2)
    else (arr, [])

/-- `Terminal.handleKeypress` restricted to its fan-out loop: returns
the listener list after the loop and the log of `(listener, event)`
invocations, in invocation order. -/
def handleKeypress (listeners : List Listener) (ev : KeypressEvent) :
    List Listener × List (Listener × KeypressEvent) :=
  dispatchAux ev listeners.length listeners 0

/-- The unsubscribe capability returned by `Terminal.onKeypress`:
`indexOf(callback)` and, when found, `splice(index, 1)` — remove the
first occurrence of the callback, a no-op when it is absent. -/
def unsubscribe (cb : Listener) (listeners : List Listener) : List Listener :=
  listeners.erase cb

/-- `evens l`: the elements of `l` at even positions (0-based). -/
def evens : List Listener → List Listener
  | [] => []
  | [x] => [x]
  | x :: _ :: xs => x :: evens xs

/-- `odds l`: the elements of `l` at odd positions (0-based). -/
def odds : List Listener → List Listener
  | [] => []
  | [_] => []
  | _ :: y :: xs => y :: odds xs

/-! ## The `Terminal` dispatcher state machine

The mutable state of a `Terminal` instance that the raw-mode claims
range over, together with the public operations as state
transformers.  `stdinHandlers` counts how many times
`this.handleKeypress.bind(this)` is currently attached to
`process.stdin`'s `"keypress"` event (`enableRawMode` attaches one,
`disableRawMode` calls `removeAllListeners("keypress")`).  `isTTY` is
the fixed `process.stdin.isTTY` of the environment. -/

/-- The mutable fields of `Terminal` that raw-mode input touches. -/
structure TermState where
  isRunning : Bool
  isRawMode : Bool
  keypressListeners : List Listener
  stdinHandlers : Nat
deriving DecidableEq

/-- A freshly constructed `Terminal`. -/
def initTerm : TermState :=
  { isRunning := false, isRawMode := false, keypressListeners := [], stdinHandlers := 0 }

/-- `Terminal.enableRawMode()`: no-op when already enabled or when the
stream is not a TTY; otherwise attaches the stdin keypress handler
and sets the flag. -/
def enableRawMode (isTTY : Bool) (s : TermState) : TermState :=
  if s.isRawMode then s
  else if isTTY then
    { s with isRawMode := true, stdinHandlers := s.stdinHandlers + 1 }
  else s

/-- `Terminal.disableRawMode()`: no-op when not enabled; otherwise (on
a TTY) removes every stdin `"keypress"` handler and clears the flag.
Note that it does not touch `keypressListeners`. -/
def disableRawMode (isTTY : Bool) (s : TermState) : TermState :=
  if !s.isRawMode then s
  else if isTTY then
    { s with isRawMode := false, stdinHandlers := 0 }
  else s

/-- `Terminal.exit()`: clear `isRunning`, then disable raw mode if it
was enabled. -/
def exitOp (isTTY : Bool) (s : TermState) : TermState :=
  let s1 := { s with isRunning := false }
  if s1.isRawMode then disableRawMode isTTY s1 else s1

/-- `Terminal.onKeypress(callback)`: push the callback. -/
def onKeypressOp (cb : Listener) (s : TermState) : TermState :=
  { s with keypressListeners := s.keypressListeners ++ [cb] }

/-- Invoking the unsubscribe capability returned by `onKeypress`. -/
def unsubscribeOp (cb : Listener) (s : TermState) : TermState :=
  { s with keypressListeners := unsubscribe cb s.keypressListeners }

/-- The error message of `Terminal.readKey` outside raw mode. -/
def readKeyErrMsg : String := "Raw mode must be enabled to read individual keys"

/-- `Terminal.readKey()` up to its suspension: outside raw mode it
throws (second component `some message`) without touching the
listener list; otherwise it pushes a fresh one-shot handler. -/
def readKeyOp (h : Nat) (s : TermState) : TermState × Option String :=
  if s.isRawMode then
    ({ s with keypressListeners := s.keypressListeners ++ [Listener.once h] }, none)
  else (s, some readKeyErrMsg)

/-- A platform `"keypress"` notification on `process.stdin`: each
attached stdin handler runs `handleKeypress` over the listener list
in turn.  Returns the new state and the invocation log. -/
def applyHandlers : Nat → List Listener → KeypressEvent →
    List Listener × List (Listener × KeypressEvent)
  | 0, ls, _ => (ls, [])
  | n + 1, ls, ev =>
    let r := handleKeypress ls ev
    let r2 := applyHandlers n r.1 ev
    (r2.1, r.2 ++ r2.2)

/-- Effect of one platform keypress notification on the terminal
state, with the log of listener invocations it causes. -/
def dispatchKeypress (s : TermState) (ev : KeypressEvent) :
    TermState × List (Listener × KeypressEvent) :=
  let r := applyHandlers s.stdinHandlers s.keypressListeners ev
  ({ s with keypressListeners := r.1 }, r.2)

/-- The public operations of the dispatcher state machine. -/
inductive TermOp
  | runStart
  | enableRaw
  | disableRaw
  | register (id : Nat)
  | unregister (id : Nat)
  | readKey (id : Nat)
  | exit
  | dispatch (ev : KeypressEvent)
deriving DecidableEq

/-- One public operation as a state transformer. -/
def stepOp (isTTY : Bool) (s : TermState) : TermOp → TermState
  | TermOp.runStart => { s with isRunning := true }
  | TermOp.enableRaw => enableRawMode isTTY s
  | TermOp.disableRaw => disableRawMode isTTY s
  | TermOp.register id => onKeypressOp (Listener.pers id) s
  | TermOp.unregister id => unsubscribeOp (Listener.pers id) s
  | TermOp.readKey id => (readKeyOp id s).1
  | TermOp.exit => exitOp isTTY s
  | TermOp.dispatch ev => (dispatchKeypress s ev).1

/-- Run a sequence of public operations from a state. -/
def runOps (isTTY : Bool) (s : TermState) (ops : List TermOp) : TermState :=
  ops.foldl (stepOp isTTY) s

/-! ## The `run(app)` lifecycle (`Terminal.run`)

`run` is `async`; the embedding describes its completed executions as
a pure function of the application's hook behavior.  A hook either
returns normally (`Except.ok ()`) or throws with a message
(`Except.error m`).  The polling loop (`setInterval` on `isRunning`)
terminates exactly when the application eventually calls `exit()`;
the embedding covers runs in which it does, which is what every claim
about a *completed* `run(app)` quantifies over.  Line input handling
during the active phase is not needed by the claims and is summarized
by the `promptShown` / `lineListenerInstalled` flags. -/

instance {ε α : Type} [DecidableEq ε] [DecidableEq α] : DecidableEq (Except ε α) := fun x y =>
  match x, y with
  | Except.ok a, Except.ok b =>
    if h : a = b then isTrue (congrArg Except.ok h)
    else isFalse (fun hh => h (Except.ok.inj hh))
  | Except.ok _, Except.error _ => isFalse (fun hh => Except.noConfusion hh)
  | Except.error _, Except.ok _ => isFalse (fun hh => Except.noConfusion hh)
  | Except.error a, Except.error b =>
    if h : a = b then isTrue (congrArg Except.error h)
    else isFalse (fun hh => h (Except.error.inj hh))

/-- The behavior of one application's lifecycle hooks during one run. -/
structure AppSpec where
  name : String
  version : String
  onStart : Except String Unit
  exitsInStart : Bool
  onExit : Except String Unit
deriving DecidableEq

/-- The observable outcome of one completed `run(app)`. -/
structure RunResult where
  outputs : List String
  promptShown : Bool
  lineListenerInstalled : Bool
  onExitCalls : Nat
  rlClosed : Bool
  outcome : Except String Unit
deriving DecidableEq

/-- The `finally` block of `run`: `await app.onExit(this);
this.rl.close();` — when `onExit` throws, `rl.close()` is never
reached and the promise returned by `run` rejects. -/
def finishRun (outs : List String) (prompt listener : Bool) :
    Except String Unit → RunResult
  | Except.ok _ =>
    { outputs := outs, promptShown := prompt, lineListenerInstalled := listener,
      onExitCalls := 1, rlClosed := true, outcome := Except.ok () }
  | Except.error e =>
    { outputs := outs, promptShown := prompt, lineListenerInstalled := listener,
      onExitCalls := 1, rlClosed := false, outcome := Except.error e }

/-- `Terminal.run(app)` as a function of the app's hook behavior:
clear, loading banner, separator, then `try onStart` / `catch` /
`finally` exactly as in the source. -/
def runTerminal (app : AppSpec) : RunResult :=
  let preOuts := [clearScreenSeq,
    displayString ("Loading " ++ app.name ++ " v" ++ app.version ++ "...")
      { color := some Color.green, bold := some true },
    displayString "-------------------\n" {}]
  match app.onStart with
  | Except.error m =>
    finishRun
      (preOuts ++ [displayString ("Failed to start application: " ++ m) { color := some Color.red }])
      false false app.onExit
  | Except.ok _ =>
    let active := !app.exitsInStart
    finishRun preOuts active active app.onExit

/-! ## The `AppSelector` menu (`AppSelector.onInput`) -/

/-- The whitespace characters `String.prototype.trim` strips (the
ASCII ones; the claims only involve ASCII inputs). -/
def jsIsSpace (c : Char) : Bool :=
  c = ' ' || c = '\t' || c = '\n' || c = '\r'

/-- `input.trim()`: strip leading and trailing whitespace. -/
def jsTrim (s : String) : String :=
  String.mk (((s.data.dropWhile jsIsSpace).reverse.dropWhile jsIsSpace).reverse)

/-- `toLowerCase` on one character (ASCII range). -/
def jsLowerChar (c : Char) : Char :=
  if 'A' ≤ c ∧ c ≤ 'Z' then Char.ofNat (c.toNat + 32) else c

/-- `input.toLowerCase()` (ASCII range). -/
def jsToLower (s : String) : String :=
  String.mk (s.data.map jsLowerChar)

/-- Digit run folded to its value, as `parseInt` does. -/
def digitsToNat (l : List Char) : Nat :=
  l.foldl (fun acc ch => acc * 10 + (ch.toNat - 48)) 0

/-- Longest leading run of decimal digits, `none` when empty. -/
def leadingDigits (l : List Char) : Option Nat :=
  let ds := l.takeWhile Char.isDigit
  if ds.isEmpty then none else some (digitsToNat ds)

/-- `parseInt(s, 10)`: skip leading whitespace, read an optional sign,
then the longest run of decimal digits; `none` models `NaN`. -/
def parseIntDec (s : String) : Option Int :=
  let cs := s.data.dropWhile (fun ch => ch = ' ')
  match cs with
  | '-' :: rest => (leadingDigits rest).map (fun n => -(n : Int))
  | '+' :: rest => (leadingDigits rest).map (fun n => (n : Int))
  | _ => (leadingDigits cs).map (fun n => (n : Int))

/-- The mutable fields of `AppSelector`, with the children abstracted
to their count (`apps.length`); the active child is its index. -/
structure SelState where
  numApps : Nat
  isInSubApp : Bool := false
  subApp : Option Nat := none
  isWaitingForChoice : Bool := false
deriving DecidableEq

/-- The externally visible effects of one `AppSelector.onInput` call. -/
inductive SelEffect
  | exit
  | startChild (idx : Nat)
  | forwardToChild (input : String)
  | displayInvalid
  | displayPrompt
deriving DecidableEq

/-- `AppSelector.onInput(input, terminal)` as a transformer of the
selector state, also returning the effects it performs, in order. -/
def selOnInput (s : SelState) (input : String) : SelState × List SelEffect :=
  if s.isInSubApp && s.subApp.isSome then (s, [SelEffect.forwardToChild input])
  else if !s.isWaitingForChoice then (s, [])
  else
    let s0 := { s with isWaitingForChoice := false }
    let choice := jsToLower (jsTrim input)
    if choice = "q" then (s0, [SelEffect.exit])
    else
      match parseIntDec choice with
      | some n =>
        if 1 ≤ n ∧ n ≤ (s.numApps : Int) then
          ({ s0 with subApp := some (n.toNat - 1), isInSubApp := true },
            [SelEffect.startChild (n.toNat - 1)])
        else
          ({ s0 with isWaitingForChoice := true },
            [SelEffect.displayInvalid, SelEffect.displayPrompt])
      | none =>
        ({ s0 with isWaitingForChoice := true },
          [SelEffect.displayInvalid, SelEffect.displayPrompt])

/-! ## The snake game (`SnakeGame`) -/

/-- A cell of the snake board. -/
structure Pos where
  x : Int
  y : Int
deriving DecidableEq

/-- The four movement directions. -/
inductive Dir
  | up
  | down
  | left
  | right
deriving DecidableEq

/-- `BOARD_WIDTH`. -/
def BOARD_WIDTH : Int := 30

/-- `BOARD_HEIGHT`. -/
def BOARD_HEIGHT : Int := 15

/-- A cell lies on the 30×15 board. -/
def inBoard (p : Pos) : Prop :=
  0 ≤ p.x ∧ p.x < BOARD_WIDTH ∧ 0 ≤ p.y ∧ p.y < BOARD_HEIGHT

instance (p : Pos) : Decidable (inBoard p) := by
  unfold inBoard; infer_instance

/-- The mutable fields of `SnakeGame` that the update loop touches. -/
structure SnakeState where
  snake : List Pos
  food : Pos
  direction : Dir
  nextDirection : Dir
  score : Nat
  gameOver : Bool
  isPaused : Bool
deriving DecidableEq

/-- Moving a head cell one step in a direction (the `switch` of
`updateGame`; the y axis grows downward). -/
def moveHead (d : Dir) (p : Pos) : Pos :=
  match d with
  | Dir.up => { p with y := p.y - 1 }
  | Dir.down => { p with y := p.y + 1 }
  | Dir.left => { p with x := p.x - 1 }
  | Dir.right => { p with x := p.x + 1 }

/-- The initial snake of `initializeGame`: three cells at mid-board,
head at `(⌊30/2⌋, ⌊15/2⌋) = (15, 7)`. -/
def initSnake : List Pos := [{ x := 15, y := 7 }, { x := 14, y := 7 }, { x := 13, y := 7 }]

/-- `SnakeGame.initializeGame()`, with the food cell produced by its
`generateFood()` call passed in (the sampling itself is random). -/
def initGame (food : Pos) : SnakeState :=
  { snake := initSnake, food := food, direction := Dir.right, nextDirection := Dir.right,
    score := 0, gameOver := false, isPaused := false }

/-- The head cell the next `updateGame` tick moves to. -/
def tickHead (s : SnakeState) : Pos :=
  moveHead s.nextDirection (s.snake.headD { x := 0, y := 0 })

/-- `SnakeGame.updateGame()`, with the food cell produced by
`generateFood()` (called only when the food is eaten) passed in. -/
def updateGame (s : SnakeState) (newFood : Pos) : SnakeState :=
  if (tickHead s).x < 0 ∨ (tickHead s).x ≥ BOARD_WIDTH ∨
      (tickHead s).y < 0 ∨ (tickHead s).y ≥ BOARD_HEIGHT then
    { s with direction := s.nextDirection, gameOver := true }
  else if tickHead s ∈ s.snake then
    { s with direction := s.nextDirection, gameOver := true }
  else if tickHead s = s.food then
    { s with
      direction := s.nextDirection, snake := (tickHead s :: s.snake),
      score := s.score + 10, food := newFood }
  else
    { s with direction := s.nextDirection, snake := (tickHead s :: s.snake).dropLast }

/-- The tick eats the food: the guards of `updateGame` fall through to
the branch that calls `generateFood`. -/
def tickEats (s : SnakeState) : Prop :=
  inBoard (tickHead s) ∧ tickHead s ∉ s.snake ∧ tickHead s = s.food

/-- The contract of `SnakeGame.generateFood()`: it samples
`(⌊rand*30⌋, ⌊rand*15⌋)` until the cell is off the snake, so the cell
it stores is on the board and off the snake. -/
def FoodOk (snake : List Pos) (p : Pos) : Prop :=
  inBoard p ∧ p ∉ snake

/-- `getDirectionFromKey`. -/
def getDirectionFromKey (keyName : String) : Option Dir :=
  if keyName = "up" then some Dir.up
  else if keyName = "down" then some Dir.down
  else if keyName = "left" then some Dir.left
  else if keyName = "right" then some Dir.right
  else none

/-- The opposite of a direction (`isValidDirectionChange`'s table). -/
def oppositeDir : Dir → Dir
  | Dir.up => Dir.down
  | Dir.down => Dir.up
  | Dir.left => Dir.right
  | Dir.right => Dir.left

/-- `isValidDirectionChange`. -/
def isValidDirectionChange (s : SnakeState) (d : Dir) : Bool :=
  s.snake.length = 1 || oppositeDir s.direction ≠ d

/-- `handleDirectionChange(keyName)`, run by the keypress listener. -/
def snakeKeyDir (s : SnakeState) (keyName : String) : SnakeState :=
  match getDirectionFromKey keyName with
  | none => s
  | some d => if isValidDirectionChange s d then { s with nextDirection := d } else s

/-- The states `SnakeGame` reaches from `initializeGame` under game
ticks (run only while not paused and not game-over) and direction
keypresses.  Food cells delivered by `generateFood` satisfy `FoodOk`
for the snake at the moment of the call (`head :: old snake`). -/
inductive SnakeReach : SnakeState → Prop
  | init (food : Pos) (hf : FoodOk initSnake food) : SnakeReach (initGame food)
  | tick (s : SnakeState) (newFood : Pos) (hs : SnakeReach s)
      (hgo : s.gameOver = false) (hp : s.isPaused = false)
      (hf : tickEats s → FoodOk (tickHead s :: s.snake) newFood) :
      SnakeReach (updateGame s newFood)
  | keyDir (s : SnakeState) (k : String) (hs : SnakeReach s) (hgo : s.gameOver = false) :
      SnakeReach (snakeKeyDir s k)

/-! ## Concrete instances used by counterexamples and witnesses -/

/-- An application whose `onStart` succeeds and calls `exit()`, and
whose `onExit` throws. -/
def appOnExitThrows : AppSpec :=
  { name := "A", version := "1.0.0", onStart := Except.ok (), exitsInStart := true,
    onExit := Except.error "exit failed" }

/-- An application whose `onStart` throws `"boom"` and whose `onExit`
also throws. -/
def appStartAndExitThrow : AppSpec :=
  { name := "A", version := "1.0.0", onStart := Except.error "boom", exitsInStart := false,
    onExit := Except.error "bad" }

/-- An application whose `onStart` throws `"boom"` and whose `onExit`
returns normally. -/
def appStartThrows : AppSpec :=
  { name := "A", version := "1.0.0", onStart := Except.error "boom", exitsInStart := false,
    onExit := Except.ok () }

/-- A sample keypress event. -/
def evA : KeypressEvent :=
  { sequence := "a", name := "a", ctrl := false, meta := false, shift := false }

/-- A second sample keypress event. -/
def evB : KeypressEvent :=
  { sequence := "b", name := "b", ctrl := false, meta := false, shift := false }

/-- A selector over two registered applications, awaiting a choice. -/
def selWaiting2 : SelState := { numApps := 2, isWaitingForChoice := true }

/-- Dispatcher-state invariant: the stdin `"keypress"` handler is
attached exactly while raw mode is enabled. -/
def TermInv (s : TermState) : Prop :=
  s.stdinHandlers = if s.isRawMode then 1 else 0

/-- The snake-game invariant of claim C10 (with the non-emptiness of
the snake, which the head access of `updateGame` relies on). -/
def SnakeInvariant (s : SnakeState) : Prop :=
  s.snake ≠ [] ∧ (∀ p ∈ s.snake, inBoard p) ∧ s.snake.Nodup ∧ s.food ∉ s.snake

/-- C9 (functional correctness): the keypress event dispatched for any
platform notification is total: `sequence` is the raw string or `""`
when absent; `name` is the platform key name, falling back to the raw
string and then to `""`; `ctrl`, `meta` and `shift` default to
`false` when the key object or the flag is absent.  Stated at every
shape of present/absent inputs. -/
theorem C9_keypress_event_total :
    (mkKeypressEvent none none = { sequence := "", name := "", ctrl := false, meta := false, shift := false }) ∧
    (∀ s : String, mkKeypressEvent (some s) none =
      { sequence := s, name := s, ctrl := false, meta := false, shift := false }) ∧
    (∀ s : String, mkKeypressEvent (some s) (some {}) =
      { sequence := s, name := s, ctrl := false, meta := false, shift := false }) ∧
    (∀ (s n : String) (c m sh : Bool),
      mkKeypressEvent (some s) (some { name := some n, ctrl := some c, meta := some m, shift := some sh }) =
        { sequence := s, name := n, ctrl := c, meta := m, shift := sh }) ∧
    (∀ (n : String) (c m sh : Bool),
      mkKeypressEvent none (some { name := some n, ctrl := some c, meta := some m, shift := some sh }) =
        { sequence := "", name := n, ctrl := c, meta := m, shift := sh }) ∧
    (∀ (c m sh : Bool), mkKeypressEvent none (some { ctrl := some c, meta := some m, shift := some sh }) =
      { sequence := "", name := "", ctrl := c, meta := m, shift := sh }) := by
  refine ⟨rfl, fun s => rfl, fun s => rfl, fun s n c m sh => rfl, fun n c m sh => rfl, fun c m sh => rfl⟩

/-- C7 (functional correctness): for every text `T`, coloring yields
exactly `ESC[<code>m ++ T ++ ESC[0m` with codes 31 (red), 32 (green),
34 (blue), 33 (yellow); and formatting with both `bold: true` and a
color nests the bold wrapper around the color-wrapped text:
`ESC[1m ++ (ESC[<code>m ++ T ++ ESC[0m) ++ ESC[0m` (the fixed order
`display` applies: color first, then bold outside). -/
theorem C7_color_and_bold_formatting :
    ∀ t : String,
      (colorize t Color.red = "\x1b[31m" ++ t ++ "\x1b[0m") ∧
      (colorize t Color.green = "\x1b[32m" ++ t ++ "\x1b[0m") ∧
      (colorize t Color.blue = "\x1b[34m" ++ t ++ "\x1b[0m") ∧
      (colorize t Color.yellow = "\x1b[33m" ++ t ++ "\x1b[0m") ∧
      (displayString t { color := some Color.red, bold := some true, newLine := some false } =
        "\x1b[1m" ++ ("\x1b[31m" ++ t ++ "\x1b[0m") ++ "\x1b[0m") ∧
      (displayString t { color := some Color.green, bold := some true, newLine := some false } =
        "\x1b[1m" ++ ("\x1b[32m" ++ t ++ "\x1b[0m") ++ "\x1b[0m") ∧
      (displayString t { color := some Color.blue, bold := some true, newLine := some false } =
        "\x1b[1m" ++ ("\x1b[34m" ++ t ++ "\x1b[0m") ++ "\x1b[0m") ∧
      (displayString t { color := some Color.yellow, bold := some true, newLine := some false } =
        "\x1b[1m" ++ ("\x1b[33m" ++ t ++ "\x1b[0m") ++ "\x1b[0m") := by
  intro t
  refine ⟨rfl, rfl, rfl, rfl, ?_, ?_, ?_, ?_⟩ <;> rfl


/-! ## Lemmas on the dispatch loop -/

theorem dispatchAux_nil (ev : KeypressEvent) :
    ∀ (fuel i : Nat), dispatchAux ev fuel [] i = ([], []) := by
  intro fuel i
  cases fuel <;> simp [dispatchAux]

/-- Shifting the live-array iterator across an element `a` it has
already passed: as long as no one-shot listener still in the array is
the very element `a` (so no removal ever hits it), running the loop
on `a :: arr` from index `i + 1` is running it on `arr` from index
`i`, with `a` kept at the front. -/
theorem dispatchAux_cons (ev : KeypressEvent) (a : Listener) :
    ∀ (fuel : Nat) (arr : List Listener) (i : Nat),
      (∀ x ∈ arr, x.isOnce = true → x ≠ a) →
      dispatchAux ev fuel (a :: arr) (i + 1) =
        (a :: (dispatchAux ev fuel arr i).1, (dispatchAux ev fuel arr i).2) := by
  intro fuel
  induction fuel with
  | zero => intro arr i _; rfl
  | succ fuel ih =>
    intro arr i hno
    by_cases hi : i < arr.length
    · have hi2 : i + 1 < (a :: arr).length := by
        simp only [List.length_cons]; omega
      have hget : (a :: arr).getD (i + 1) (Listener.pers 0) = arr.getD i (Listener.pers 0) := by
        simp [List.getD_cons_succ]
      rcases hx : arr.getD i (Listener.pers 0) with n | n
      · simp only [dispatchAux, if_pos hi, if_pos hi2, hget, hx]
        rw [ih arr (i + 1) hno]
      · have hmem : Listener.once n ∈ arr := by
          rw [← hx]
          have := List.getD_eq_getElem arr (Listener.pers 0) hi
          rw [this]
          exact List.getElem_mem hi
        have hne : Listener.once n ≠ a := hno _ hmem rfl
        have herase : (a :: arr).erase (Listener.once n) = a :: arr.erase (Listener.once n) := by
          rw [List.erase_cons_tail]
          simp [Ne.symm hne]
        simp only [dispatchAux, if_pos hi, if_pos hi2, hget, hx, herase]
        rw [ih (arr.erase (Listener.once n)) (i + 1)
          (fun x hx2 ho => hno x (List.mem_of_mem_erase hx2) ho)]
    · have hi2 : ¬(i + 1 < (a :: arr).length) := by
        simp only [List.length_cons]; omega
      simp only [dispatchAux, if_neg hi, if_neg hi2]

/-- Dispatching one event to a queue consisting only of distinct
one-shot `readKey` handlers fires exactly the handlers at the even
positions of the queue and leaves exactly those at the odd positions:
each firing handler splices itself out, which shifts the next handler
under the live iterator so that it is skipped for this event. -/
theorem dispatch_once_all (ev : KeypressEvent) :
    ∀ (n : Nat) (L : List Listener), L.length ≤ n →
      (∀ x ∈ L, x.isOnce = true) → L.Nodup →
      ∀ fuel, L.length ≤ fuel →
      dispatchAux ev fuel L 0 = (odds L, (evens L).map (fun x => (x, ev))) := by
  intro n
  induction n with
  | zero =>
    intro L hL _ _ fuel _
    have : L = [] := List.length_eq_zero.mp (Nat.le_zero.mp hL)
    subst this
    simp [dispatchAux_nil, odds, evens]
  | succ n ih =>
    intro L hL hone hnd fuel hfuel
    match L, hL, hone, hnd, hfuel with
    | [], _, _, _, _ => simp [dispatchAux_nil, odds, evens]
    | [x], _, hone, _, hfuel =>
      obtain ⟨fuel, rfl⟩ : ∃ f, fuel = f + 1 := by
        rcases fuel with _ | f
        · simp at hfuel
        · exact ⟨f, rfl⟩
      rcases hx : x with m | m
      · have := hone x (by simp)
        rw [hx] at this
        simp [Listener.isOnce] at this
      · simp [dispatchAux, List.getD_cons_zero, List.erase_cons_head, dispatchAux_nil, odds,
          evens]
    | x :: y :: xs, hL, hone, hnd, hfuel =>
      obtain ⟨fuel, rfl⟩ : ∃ f, fuel = f + 1 := by
        rcases fuel with _ | f
        · simp at hfuel
        · exact ⟨f, rfl⟩
      rcases hx : x with m | m
      · have := hone x (by simp)
        rw [hx] at this
        simp [Listener.isOnce] at this
      · subst hx
        have hlt : 0 < (Listener.once m :: y :: xs).length := by simp
        have hcons : dispatchAux ev fuel (y :: xs) (0 + 1) =
            (y :: (dispatchAux ev fuel xs 0).1, (dispatchAux ev fuel xs 0).2) := by
          refine dispatchAux_cons ev y fuel xs 0 ?_
          intro z hz _
          have hy : y ∉ xs := by
            have := hnd.of_cons
            exact (List.nodup_cons.mp this).1
          intro hzy
          exact hy (hzy ▸ hz)
        have hxs : dispatchAux ev fuel xs 0 = (odds xs, (evens xs).map (fun x => (x, ev))) := by
          refine ih xs ?_ ?_ ?_ fuel ?_
          · simp only [List.length_cons] at hL
            omega
          · intro z hz
            exact hone z (by simp [hz])
          · exact hnd.of_cons.of_cons
          · simp only [List.length_cons] at hfuel
            omega
        simp only [dispatchAux, if_pos hlt, List.getD_cons_zero, List.erase_cons_head]
        rw [hcons, hxs]
        simp [odds, evens]

/-- Dispatching one event to a queue of plain `onKeypress` callbacks
followed by a single one-shot `readKey` handler fires every callback
in registration order, fires the one-shot handler with the event, and
removes exactly the one-shot handler. -/
theorem dispatch_pers_front (ev : KeypressEvent) :
    ∀ (L : List Listener) (m : Nat) (fuel : Nat),
      L.length + 1 ≤ fuel →
      (∀ x ∈ L, x.isOnce = false) →
      dispatchAux ev fuel (L ++ [Listener.once m]) 0 =
        (L, L.map (fun c => (c, ev)) ++ [(Listener.once m, ev)]) := by
  intro L
  induction L with
  | nil =>
    intro m fuel hfuel _
    obtain ⟨fuel, rfl⟩ : ∃ f, fuel = f + 1 := by
      rcases fuel with _ | f
      · simp at hfuel
      · exact ⟨f, rfl⟩
    simp [dispatchAux, List.getD_cons_zero, List.erase_cons_head, dispatchAux_nil]
  | cons a L ih =>
    intro m fuel hfuel hpers
    obtain ⟨fuel, rfl⟩ : ∃ f, fuel = f + 1 := by
      rcases fuel with _ | f
      · simp at hfuel
      · exact ⟨f, rfl⟩
    rcases ha : a with n | n
    · subst ha
      have hlt : 0 < ((Listener.pers n :: L) ++ [Listener.once m]).length := by simp
      have hcons : dispatchAux ev fuel (Listener.pers n :: (L ++ [Listener.once m])) (0 + 1) =
          (Listener.pers n :: (dispatchAux ev fuel (L ++ [Listener.once m]) 0).1,
            (dispatchAux ev fuel (L ++ [Listener.once m]) 0).2) := by
        refine dispatchAux_cons ev (Listener.pers n) fuel (L ++ [Listener.once m]) 0 ?_
        intro z _ hz hzp
        rw [hzp] at hz
        simp [Listener.isOnce] at hz
      have hL : dispatchAux ev fuel (L ++ [Listener.once m]) 0 =
          (L, L.map (fun c => (c, ev)) ++ [(Listener.once m, ev)]) := by
        refine ih m fuel ?_ ?_
        · simp only [List.length_cons] at hfuel
          omega
        · intro z hz
          exact hpers z (by simp [hz])
      simp only [List.cons_append, dispatchAux, if_pos hlt, List.getD_cons_zero]
      rw [hcons, hL]
      simp
    · have := hpers a (by simp)
      rw [ha] at this
      simp [Listener.isOnce] at this

/-- String concatenation is associative (via the underlying data). -/
theorem strAppendAssoc (a b c : String) : a ++ b ++ c = a ++ (b ++ c) := by
  apply String.ext
  simp [String.data_append]

/-! ## The dispatcher state machine: C1 -/

/-- Every public operation preserves the handler-attachment invariant. -/
theorem stepOp_inv (tty : Bool) (s : TermState) (op : TermOp) (h : TermInv s) :
    TermInv (stepOp tty s op) := by
  obtain ⟨rn, raw, ls, hd⟩ := s
  cases op <;> cases raw <;> cases tty <;>
    simp_all [TermInv, stepOp, enableRawMode, disableRawMode, exitOp, onKeypressOp,
      unsubscribeOp, readKeyOp, dispatchKeypress]

/-- The handler-attachment invariant holds along every run of public
operations. -/
theorem runOps_inv (tty : Bool) : ∀ (ops : List TermOp) (s : TermState),
    TermInv s → TermInv (runOps tty s ops) := by
  intro ops
  induction ops with
  | nil => intro s h; exact h
  | cons op ops ih => intro s h; exact ih _ (stepOp_inv tty s op h)

/-- C1 (counterexample): enable raw mode, register a listener, disable
raw mode — the claim says `keypressListeners` is then empty, but
`disableRawMode` never touches the list: the listener is still there
while `isRawMode` is false. -/
theorem C1_counterexample :
    (runOps true initTerm [TermOp.enableRaw, TermOp.register 0, TermOp.disableRaw]).isRawMode =
      false ∧
    (runOps true initTerm [TermOp.enableRaw, TermOp.register 0, TermOp.disableRaw]).keypressListeners =
      [Listener.pers 0] := by
  decide

/-- C1 (amended): in every state reachable through the public
operations, the stdin keypress handler is attached exactly while raw
mode is enabled; hence once raw mode is disabled, a dispatched
platform keypress invokes zero listeners and leaves the state
unchanged — even though `keypressListeners` itself is not cleared by
`disableRawMode` and may be non-empty while raw mode is off. -/
theorem C1_amended (tty : Bool) (ops : List TermOp) (ev : KeypressEvent)
    (hraw : (runOps tty initTerm ops).isRawMode = false) :
    dispatchKeypress (runOps tty initTerm ops) ev = (runOps tty initTerm ops, []) := by
  have h := runOps_inv tty ops initTerm (by simp [TermInv, initTerm])
  unfold TermInv at h
  rw [hraw] at h
  simp only [if_neg Bool.false_ne_true, Bool.false_eq_true, if_false] at h
  simp only [dispatchKeypress, h, applyHandlers]
  rw [← h]

/-- C1 (witness): the amended theorem at the counterexample trace. -/
theorem C1_amended_witness :
    dispatchKeypress (runOps true initTerm [TermOp.enableRaw, TermOp.register 0, TermOp.disableRaw])
        evA =
      (runOps true initTerm [TermOp.enableRaw, TermOp.register 0, TermOp.disableRaw], []) :=
  C1_amended true [TermOp.enableRaw, TermOp.register 0, TermOp.disableRaw] evA (by decide)

/-! ## readKey dispatch: C2 and C5 -/

/-- C2 (counterexample): with three outstanding `readKey` calls
(one-shot handlers 0, 1, 2 registered in FIFO order), the first
dispatched event fires handlers 0 and 2 — handler 1 is skipped
because handler 0's self-removal shifts it under the live iterator —
so readKey 2 is satisfied before readKey 1, refuting both the claimed
registration order and "no outstanding readKey is skipped"; the
second event then satisfies readKey 1. -/
theorem C2_counterexample :
    handleKeypress [Listener.once 0, Listener.once 1, Listener.once 2] evA =
      ([Listener.once 1], [(Listener.once 0, evA), (Listener.once 2, evA)]) ∧
    handleKeypress [Listener.once 1] evB = ([], [(Listener.once 1, evB)]) := by
  decide

/-- C2 (amended): dispatching one keypress event to a queue of
distinct outstanding one-shot `readKey` handlers satisfies exactly
the handlers at even positions of the queue, each with that same
event, and leaves exactly the handlers at odd positions outstanding.
Each readKey is therefore satisfied by at most one event and repeated
events eventually satisfy all of them, but for three or more
outstanding calls they are not satisfied in registration order, and
one event can satisfy several. -/
theorem C2_amended (L : List Listener) (ev : KeypressEvent)
    (hone : ∀ x ∈ L, x.isOnce = true) (hnd : L.Nodup) :
    handleKeypress L ev = (odds L, (evens L).map (fun x => (x, ev))) :=
  dispatch_once_all ev L.length L le_rfl hone hnd L.length le_rfl

/-- C2 (witness): the amended theorem at a three-handler queue. -/
theorem C2_amended_witness :
    handleKeypress [Listener.once 3, Listener.once 4, Listener.once 5] evA =
      (odds [Listener.once 3, Listener.once 4, Listener.once 5],
        (evens [Listener.once 3, Listener.once 4, Listener.once 5]).map (fun x => (x, evA))) :=
  C2_amended [Listener.once 3, Listener.once 4, Listener.once 5] evA (by decide) (by decide)

/-- C5 (confirmed): `readKey()` rejects with a descriptive error and
registers no listener whenever raw mode is not enabled; with raw mode
enabled it registers a one-shot handler, and the next dispatched
keypress event resolves that handler with exactly that event and
removes it from the listener list (stated with the previously
registered listeners being plain `onKeypress` callbacks, i.e. one
outstanding `readKey`). -/
theorem C5_readKey (s : TermState) (h : Nat) (ev : KeypressEvent) :
    (s.isRawMode = false → readKeyOp h s = (s, some readKeyErrMsg)) ∧
    (s.isRawMode = true → (∀ x ∈ s.keypressListeners, x.isOnce = false) →
      (readKeyOp h s).2 = none ∧
      (readKeyOp h s).1.keypressListeners = s.keypressListeners ++ [Listener.once h] ∧
      handleKeypress (s.keypressListeners ++ [Listener.once h]) ev =
        (s.keypressListeners,
          s.keypressListeners.map (fun c => (c, ev)) ++ [(Listener.once h, ev)])) := by
  constructor
  · intro hraw
    simp [readKeyOp, hraw]
  · intro hraw hpers
    refine ⟨by simp [readKeyOp, hraw], by simp [readKeyOp, hraw], ?_⟩
    unfold handleKeypress
    have hlen : (s.keypressListeners ++ [Listener.once h]).length =
        s.keypressListeners.length + 1 := by simp
    rw [hlen]
    exact dispatch_pers_front ev s.keypressListeners h (s.keypressListeners.length + 1) le_rfl hpers

/-- C5 (witness): the theorem on a fresh terminal (raw mode off) and
on a raw-mode terminal with one plain listener registered. -/
theorem C5_readKey_witness :
    readKeyOp 7 initTerm = (initTerm, some readKeyErrMsg) ∧
    handleKeypress ([Listener.pers 3] ++ [Listener.once 7]) evA =
      ([Listener.pers 3],
        [Listener.pers 3].map (fun c => (c, evA)) ++ [(Listener.once 7, evA)]) := by
  constructor
  · exact (C5_readKey initTerm 7 evA).1 rfl
  · exact ((C5_readKey
      { isRunning := true, isRawMode := true, keypressListeners := [Listener.pers 3],
        stdinHandlers := 1 } 7 evA).2 rfl (by decide)).2.2

/-! ## The run lifecycle: C3 and C4 -/

/-- C3 (counterexample): for an application whose `onExit` throws,
`run` invokes `onExit`, but the `finally` block aborts before
`rl.close()`, so the input channel is never closed and `run` rejects
— refuting "the readline interface has been closed on every exit
path including an exception thrown from onExit". -/
theorem C3_counterexample :
    (runTerminal appOnExitThrows).onExitCalls = 1 ∧
    (runTerminal appOnExitThrows).rlClosed = false ∧
    (runTerminal appOnExitThrows).outcome = Except.error "exit failed" := by
  decide

/-- C3 (amended): on every completed `run(app)` — normal exit or
`onStart` failure — `onExit` is invoked exactly once; the underlying
readline interface is closed exactly when `onExit` returns normally;
when `onExit` itself throws, `run` rejects with that error and the
channel is left open. -/
theorem C3_amended (app : AppSpec) :
    (runTerminal app).onExitCalls = 1 ∧
    ((runTerminal app).rlClosed = true ↔ app.onExit = Except.ok ()) ∧
    (∀ e, app.onExit = Except.error e →
      (runTerminal app).rlClosed = false ∧ (runTerminal app).outcome = Except.error e) := by
  rcases hs : app.onStart with v | m <;> rcases hx : app.onExit with w | e <;>
    simp [runTerminal, finishRun, hs, hx]

/-- C3 (witness): the amended theorem at the throwing-`onExit`
application. -/
theorem C3_amended_witness :
    (runTerminal appOnExitThrows).rlClosed = false ∧
    (runTerminal appOnExitThrows).outcome = Except.error "exit failed" :=
  (C3_amended appOnExitThrows).2.2 "exit failed" rfl

/-- C4 (counterexample): an application whose `onStart` throws
`"boom"` but whose `onExit` also throws makes `run` reject — so, as
universally quantified over every application whose `onStart` throws,
"run(app) resolves" is refuted. -/
theorem C4_counterexample :
    appStartAndExitThrow.onStart = Except.error "boom" ∧
    (runTerminal appStartAndExitThrow).outcome = Except.error "bad" ∧
    (runTerminal appStartAndExitThrow).outcome ≠ Except.ok () := by
  decide

/-- C4 (amended): for every application whose `onStart` throws with
message `m` and whose `onExit` returns normally, `run` resolves, the
output contains `"Failed to start application: "` followed by `m`, no
line listener is installed, no prompt is shown, and `onExit` is
invoked exactly once. -/
theorem C4_amended (m : String) (app : AppSpec)
    (hs : app.onStart = Except.error m) (hx : app.onExit = Except.ok ()) :
    (runTerminal app).outcome = Except.ok () ∧
    (∃ pre post : String,
      pre ++ ("Failed to start application: " ++ m) ++ post ∈ (runTerminal app).outputs) ∧
    (runTerminal app).lineListenerInstalled = false ∧
    (runTerminal app).promptShown = false ∧
    (runTerminal app).onExitCalls = 1 := by
  refine ⟨?_, ⟨"\x1b[31m", "\x1b[0m" ++ "\n", ?_⟩, ?_, ?_, ?_⟩
  · simp [runTerminal, hs, hx, finishRun]
  · simp only [runTerminal, hs, hx, finishRun]
    refine List.mem_cons.mpr (Or.inr (List.mem_cons.mpr (Or.inr (List.mem_cons.mpr
      (Or.inr (List.mem_cons.mpr (Or.inl ?_)))))))
    simp [displayString, colorize, colorSeq, resetSeq, strAppendAssoc]
  · simp [runTerminal, hs, hx, finishRun]
  · simp [runTerminal, hs, hx, finishRun]
  · simp [runTerminal, hs, hx, finishRun]

/-- C4 (witness): the amended theorem at the `"boom"` application with
a well-behaved `onExit`. -/
theorem C4_amended_witness :
    (runTerminal appStartThrows).outcome = Except.ok () ∧
    (∃ pre post : String,
      pre ++ ("Failed to start application: " ++ "boom") ++ post ∈
        (runTerminal appStartThrows).outputs) ∧
    (runTerminal appStartThrows).lineListenerInstalled = false ∧
    (runTerminal appStartThrows).promptShown = false ∧
    (runTerminal appStartThrows).onExitCalls = 1 :=
  C4_amended "boom" appStartThrows rfl rfl

/-! ## The unsubscribe capability: C6 -/

/-- C6 (counterexample): register the same callback twice; the
unsubscribe capability of the first registration, invoked a second
time, removes the *other* occurrence as well (`indexOf` finds the
remaining copy), so the second invocation is not harmless: it changes
the listener list from one registration to none. -/
theorem C6_counterexample :
    unsubscribe (Listener.pers 0) [Listener.pers 0, Listener.pers 0] = [Listener.pers 0] ∧
    unsubscribe (Listener.pers 0)
        (unsubscribe (Listener.pers 0) [Listener.pers 0, Listener.pers 0]) = [] := by
  decide

/-- C6 (amended): invoking the unsubscribe capability removes exactly
the first occurrence of the callback, leaving every other registered
listener intact; a second invocation is harmless (the list is
unchanged) provided the callback is no longer registered — in
particular whenever it had been registered only once.  When the same
callback is registered more than once, each invocation removes one
more occurrence (see the counterexample). -/
theorem C6_amended (pre post : List Listener) (cb : Listener) (hpre : cb ∉ pre) :
    unsubscribe cb (pre ++ cb :: post) = pre ++ post ∧
    (cb ∉ post → unsubscribe cb (pre ++ post) = pre ++ post) := by
  constructor
  · unfold unsubscribe
    rw [List.erase_append_right _ hpre, List.erase_cons_head]
  · intro hpost
    unfold unsubscribe
    exact List.erase_of_not_mem (by simp [List.mem_append, hpre, hpost])

/-- C6 (witness): the amended theorem at a three-listener list with
distinct callbacks. -/
theorem C6_amended_witness :
    unsubscribe (Listener.pers 0) ([Listener.pers 1] ++ Listener.pers 0 :: [Listener.pers 2]) =
      [Listener.pers 1] ++ [Listener.pers 2] ∧
    unsubscribe (Listener.pers 0) ([Listener.pers 1] ++ [Listener.pers 2]) =
      [Listener.pers 1] ++ [Listener.pers 2] := by
  have h := C6_amended [Listener.pers 1] [Listener.pers 2] (Listener.pers 0) (by decide)
  exact ⟨h.1, h.2 (by decide)⟩

/-! ## The menu selector: C8 -/

/-- C8 (counterexample): with two registered apps and the selector
awaiting a choice, the input `"1.5"` is not `"q"` and is not a valid
1-based index, so the claim says it re-prompts without activating any
child; but `parseInt("1.5", 10)` yields `1`, so the code activates
the first child and changes the selector state. -/
theorem C8_counterexample :
    selOnInput selWaiting2 "1.5" =
      ({ numApps := 2, isInSubApp := true, subApp := some 0, isWaitingForChoice := false },
        [SelEffect.startChild 0]) := by
  decide

/-- C8 (amended): while the selector awaits a menu choice, `"q"`
(case-insensitive, after trimming) exits the runtime; any input whose
`parseInt` value `n` (optional sign plus longest leading digit run)
satisfies `1 ≤ n ≤ N` activates the `n`-th child — including inputs
such as `"1.5"` or `"2abc"`; and any input that is not `"q"` and has
no in-range `parseInt` value re-displays the prompt with an error
message and leaves the selector state unchanged. -/
theorem C8_amended (s : SelState) (input : String)
    (h1 : s.isInSubApp = false) (h2 : s.isWaitingForChoice = true) :
    ((jsToLower (jsTrim input) = "q" →
        selOnInput s input = ({ s with isWaitingForChoice := false }, [SelEffect.exit])) ∧
      (∀ n : Int, jsToLower (jsTrim input) ≠ "q" →
        parseIntDec (jsToLower (jsTrim input)) = some n →
        1 ≤ n → n ≤ (s.numApps : Int) →
        selOnInput s input =
          ({ s with
              isWaitingForChoice := false, isInSubApp := true, subApp := some (n.toNat - 1) },
            [SelEffect.startChild (n.toNat - 1)])) ∧
      (jsToLower (jsTrim input) ≠ "q" →
        (∀ n : Int, parseIntDec (jsToLower (jsTrim input)) = some n →
          n < 1 ∨ (s.numApps : Int) < n) →
        selOnInput s input = (s, [SelEffect.displayInvalid, SelEffect.displayPrompt]))) := by
  obtain ⟨nA, iS, sA, wC⟩ := s
  dsimp only at h1 h2
  subst h1
  subst h2
  refine ⟨?_, ?_, ?_⟩
  · intro hq
    simp [selOnInput, hq]
  · intro n hq hp h1n hn
    simp only at hn
    simp [selOnInput, hq, hp, h1n, hn]
  · intro hq hout
    rcases hp : parseIntDec (jsToLower (jsTrim input)) with _ | n
    · simp [selOnInput, hq, hp]
    · have hnr := hout n hp
      have hcond : ¬(1 ≤ n ∧ n ≤ (nA : Int)) := by
        simp only at hnr
        rcases hnr with hlt | hgt
        · intro hc
          omega
        · intro hc
          omega
      simp [selOnInput, hq, hp, hcond]

/-- C8 (witness): the amended theorem on a two-app selector at the
inputs `"Q"`, `"2"` and `"5"`. -/
theorem C8_amended_witness :
    selOnInput selWaiting2 "Q" =
      ({ selWaiting2 with isWaitingForChoice := false }, [SelEffect.exit]) ∧
    selOnInput selWaiting2 "2" =
      ({ selWaiting2 with
          isWaitingForChoice := false, isInSubApp := true, subApp := some ((2 : Int).toNat - 1) },
        [SelEffect.startChild ((2 : Int).toNat - 1)]) ∧
    selOnInput selWaiting2 "5" = (selWaiting2, [SelEffect.displayInvalid, SelEffect.displayPrompt]) := by
  refine ⟨?_, ?_, ?_⟩
  · exact (C8_amended selWaiting2 "Q" rfl rfl).1 (by decide)
  · exact (C8_amended selWaiting2 "2" rfl rfl).2.1 2 (by decide) (by decide) (by decide) (by decide)
  · refine (C8_amended selWaiting2 "5" rfl rfl).2.2 (by decide) ?_
    intro n hp
    have h5 : parseIntDec (jsToLower (jsTrim "5")) = some 5 := by decide
    rw [h5] at hp
    have hn5 : (5 : Int) = n := Option.some.inj hp
    subst hn5
    exact Or.inr (by decide)

/-! ## The snake game: C10 -/

/-- The game state produced by `initializeGame` satisfies the
invariant for any food cell `generateFood` can deliver. -/
theorem snakeInv_init (food : Pos) (hf : FoodOk initSnake food) :
    SnakeInvariant (initGame food) := by
  refine ⟨?_, ?_, ?_, hf.2⟩
  · show initSnake ≠ []
    decide
  · show ∀ p ∈ initSnake, inBoard p
    decide
  · show initSnake.Nodup
    decide

/-- A direction keypress preserves the snake invariant (it only
changes `nextDirection`). -/
theorem snakeInv_key (s : SnakeState) (k : String) (h : SnakeInvariant s) :
    SnakeInvariant (snakeKeyDir s k) := by
  rcases hd : getDirectionFromKey k with _ | d
  · simpa [snakeKeyDir, hd] using h
  · simp only [snakeKeyDir, hd]
    by_cases hv : isValidDirectionChange s d = true
    · rw [if_pos hv]
      exact h
    · rw [if_neg hv]
      exact h

/-- One `updateGame` tick preserves the snake invariant, given the
`generateFood` contract for the food cell it may install. -/
theorem snakeInv_tick (s : SnakeState) (nf : Pos) (h : SnakeInvariant s)
    (hf : tickEats s → FoodOk (tickHead s :: s.snake) nf) :
    SnakeInvariant (updateGame s nf) := by
  obtain ⟨hne, hib, hnd, hfo⟩ := h
  unfold updateGame
  by_cases hwall : (tickHead s).x < 0 ∨ (tickHead s).x ≥ BOARD_WIDTH ∨
      (tickHead s).y < 0 ∨ (tickHead s).y ≥ BOARD_HEIGHT
  · rw [if_pos hwall]
    exact ⟨hne, hib, hnd, hfo⟩
  · rw [if_neg hwall]
    have hin : inBoard (tickHead s) := by
      unfold inBoard
      push_neg at hwall
      obtain ⟨w1, w2, w3, w4⟩ := hwall
      exact ⟨by omega, by omega, by omega, by omega⟩
    by_cases hself : tickHead s ∈ s.snake
    · rw [if_pos hself]
      exact ⟨hne, hib, hnd, hfo⟩
    · rw [if_neg hself]
      by_cases heat : tickHead s = s.food
      · rw [if_pos heat]
        refine ⟨by simp, ?_, ?_, ?_⟩
        · intro p hp
          rcases List.mem_cons.mp hp with rfl | hp2
          · exact hin
          · exact hib p hp2
        · exact List.nodup_cons.mpr ⟨hself, hnd⟩
        · exact (hf ⟨hin, hself, heat⟩).2
      · rw [if_neg heat]
        have hsub : (tickHead s :: s.snake).dropLast.Sublist (tickHead s :: s.snake) :=
          List.dropLast_sublist _
        refine ⟨?_, ?_, ?_, ?_⟩
        · intro hcon
          have hlen := congrArg List.length hcon
          simp only [List.length_dropLast, List.length_cons, List.length_nil,
            Nat.add_sub_cancel] at hlen
          exact hne (List.length_eq_zero.mp hlen)
        · intro p hp
          rcases List.mem_cons.mp (hsub.subset hp) with rfl | hp3
          · exact hin
          · exact hib p hp3
        · exact hsub.nodup (List.nodup_cons.mpr ⟨hself, hnd⟩)
        · intro hcon
          rcases List.mem_cons.mp (hsub.subset hcon) with heq | hmem
          · exact heat heq.symm
          · exact hfo hmem

/-- The snake invariant holds in every reachable game state. -/
theorem snakeReach_inv (s : SnakeState) (h : SnakeReach s) : SnakeInvariant s := by
  induction h with
  | init food hf => exact snakeInv_init food hf
  | tick s nf hs hgo hp hf ih => exact snakeInv_tick s nf ih hf
  | keyDir s k hs hgo ih => exact snakeInv_key s k ih

/-- C10 (confirmed): in every state the snake game reaches from
`initializeGame` through update ticks (and direction keypresses) in
which game-over has not been set, every snake segment lies on the
30×15 board, the segments are pairwise distinct, and the food cell
differs from every snake segment (`generateFood` re-samples until the
food is off the snake). -/
theorem C10_snake_invariant (s : SnakeState) (hs : SnakeReach s) (_hgo : s.gameOver = false) :
    (∀ p ∈ s.snake, inBoard p) ∧ s.snake.Nodup ∧ s.food ∉ s.snake := by
  obtain ⟨_, h1, h2, h3⟩ := snakeReach_inv s hs
  exact ⟨h1, h2, h3⟩

/-- C10 (witness): the theorem at the initial state with the food at
the origin. -/
theorem C10_snake_invariant_witness :
    (∀ p ∈ (initGame { x := 0, y := 0 }).snake, inBoard p) ∧
    (initGame { x := 0, y := 0 }).snake.Nodup ∧
    (initGame { x := 0, y := 0 }).food ∉ (initGame { x := 0, y := 0 }).snake :=
  C10_snake_invariant (initGame { x := 0, y := 0 })
    (SnakeReach.init { x := 0, y := 0 } ⟨by decide, by decide⟩) rfl

end NodeTerminal
